import Mathlib

/-!
Shallow embedding of the Trello-export program (`export.py`) and proofs
about its name-resolution and export-formatting pipeline.

Remote objects (boards, lists, cards, comments) are modelled as plain
records holding the data the program reads from them; the remote calls
`client.list_boards()`, `board.list_lists()`, `list.list_cards()` and
`card.get_comments()` become field accesses.  The local filesystem is a
total map from filename to file content, a missing file reading as the
empty string (Python's append mode creates the file).  Each logging call
of the program is modelled by a structured `LogMsg` constructor carrying
the data interpolated into the message.  Python string case-folding and
splitting are embedded as executable character-list functions (ASCII
case folding, as the names involved are ASCII).
-/

deriving instance DecidableEq for Except

namespace TrelloExport

/-- A comment as returned by `card.get_comments()`: the program reads
`c["memberCreator"]["fullName"]` and `c["data"]["text"]`. -/
structure Comment where
  fullName : String
  text : String
deriving DecidableEq, Repr, Inhabited

/-- A remote card: the program reads `card.name`, `card.description` and
`card.get_comments()`. -/
structure Card where
  name : String
  description : String
  comments : List Comment
deriving DecidableEq, Repr, Inhabited

/-- A remote list: the program reads `list_.name` and `list_.list_cards()`. -/
structure TrelloList where
  name : String
  cards : List Card
deriving DecidableEq, Repr, Inhabited

/-- A remote board: the program reads `board.name` and `board.list_lists()`. -/
structure Board where
  name : String
  lists : List TrelloList
deriving DecidableEq, Repr, Inhabited

/-- `CardData` named tuple of the source. -/
structure CardData where
  name : String
  desc : String
  comments : String
deriving DecidableEq, Repr, Inhabited

/-- `ListData` named tuple of the source (the lazy card stream is
materialised as a list; the program consumes it exactly once). -/
structure ListData where
  name : String
  cards : List CardData
deriving DecidableEq, Repr, Inhabited

/-- The exception hierarchy of the source: `CredentialsException`,
`NoBoardException` and `NoListsException`, all subclasses of the one
`TrelloExportException` caught by `main`. -/
inductive ExportError where
  | credentialsException
  | noBoardException
  | noListsException
deriving DecidableEq, Repr, Inhabited

/-- One structured log record per `logger.*` call of the source, carrying
the data interpolated into the message. -/
inductive LogMsg where
  /-- info: Found a board with exactly this name -/
  | infoFoundExact
  /-- error: Found more than one board with this name -/
  | errorMoreThanOneBoard
  /-- info: Did not find an exact match -/
  | infoNoExactMatch
  /-- info: Found a board with a matching name: (name) -/
  | infoFoundMatchingBoard (name : String)
  /-- error: Did not find neither an exact match nor a similar name -/
  | errorNeitherMatch
  /-- error: No lists with specified names found -/
  | errorNoListsFound
  /-- info: Exporting lists (joined names) -/
  | infoExportingLists (names : String)
  /-- warning: Found only (found) lists out of specified (requested) -/
  | warnFoundOnly (found : Nat) (requested : Nat)
  /-- info: Saving to files -/
  | infoSavingToFiles
  /-- info: Saved to (files) -/
  | infoSavedTo (files : Finset String)
  /-- error: Export failed. See details above -/
  | errorExportFailed
deriving DecidableEq

/-- ASCII case folding of one character, embedding `str.lower()`. -/
def charLower (c : Char) : Char :=
  if 65 ≤ c.toNat ∧ c.toNat ≤ 90 then Char.ofNat (c.toNat + 32) else c

/-- `s.lower()`. -/
def strLower (s : String) : String := ⟨s.data.map charLower⟩

/-- Whether `pat` occurs at the start of `hay` (character lists). -/
def charsStart : List Char → List Char → Bool
  | [], _ => true
  | _ :: _, [] => false
  | a :: as, b :: bs => a == b && charsStart as bs

/-- Whether `pat` occurs anywhere in `hay`: Python's `pat in hay` on
strings (the empty pattern occurs in every string). -/
def charsContain (pat : List Char) : List Char → Bool
  | [] => charsStart pat []
  | h :: t => charsStart pat (h :: t) || charsContain pat t

/-- `pat in hay` for strings. -/
def strContains (hay pat : String) : Bool := charsContain pat.data hay.data

/-- Helper of `splitComma`: accumulates the current field (reversed). -/
def splitCommaAux : List Char → List Char → List String
  | [], acc => [⟨acc.reverse⟩]
  | c :: rest, acc =>
    if c == ',' then ⟨acc.reverse⟩ :: splitCommaAux rest []
    else splitCommaAux rest (c :: acc)

/-- `s.split(",")`: fields between commas, `"" ↦ [""]`, no collapsing. -/
def splitComma (s : String) : List String := splitCommaAux s.data []

/-- `sep.join(parts)`. -/
def joinSep (sep : String) : List String → String
  | [] => ""
  | [s] => s
  | s :: rest => s ++ sep ++ joinSep sep rest

/-- Python truthiness of the `lists` option (`None` or a string):
`None` and `""` are falsy. -/
def strTruthy : Option String → Bool
  | none => false
  | some s => !(s == "")

/-- The exact-match test of `find_board`:
`board.name.lower() == board_name.lower()`. -/
def exactMatch (board_name : String) (b : Board) : Bool :=
  strLower b.name == strLower board_name

/-- The fallback test of `find_board`:
`board_name.lower() in board.name.lower()`. -/
def inexactMatch (board_name : String) (b : Board) : Bool :=
  strContains (strLower b.name) (strLower board_name)

/-- `find_board` of the source, over the board sequence the client
returned (the `Unauthorized` branch concerns the external client and is
outside this embedding).  Returns the log records it emits and either
the resolved board or the exception it raises. -/
def find_board (all_boards : List Board) (board_name : String) :
    List LogMsg × Except ExportError Board :=
  let matching_boards := all_boards.filter (exactMatch board_name)
  if matching_boards.length = 1 then
    ([LogMsg.infoFoundExact], Except.ok matching_boards.head!)
  else if matching_boards.length > 1 then
    ([LogMsg.errorMoreThanOneBoard], Except.error ExportError.noBoardException)
  else
    let inexactly_matching := all_boards.filter (inexactMatch board_name)
    if inexactly_matching.length = 1 then
      ([LogMsg.infoNoExactMatch, LogMsg.infoFoundMatchingBoard inexactly_matching.head!.name],
        Except.ok inexactly_matching.head!)
    else if inexactly_matching.length > 1 then
      ([LogMsg.infoNoExactMatch, LogMsg.errorMoreThanOneBoard],
        Except.error ExportError.noBoardException)
    else
      ([LogMsg.infoNoExactMatch, LogMsg.errorNeitherMatch],
        Except.error ExportError.noBoardException)

/-- `find_lists` of the source.  `lists_names` is the `--lists` option
(default `None`).  Returns the log records it emits and either the
matching lists or the exception it raises. -/
def find_lists (board : Board) (lists_names : Option String) :
    List LogMsg × Except ExportError (List TrelloList) :=
  let names := splitComma (lists_names.getD "")
  let matching_lists :=
    if strTruthy lists_names then board.lists.filter (fun l => names.contains l.name)
    else board.lists
  let found := matching_lists.length
  if found = 0 then
    ([LogMsg.errorNoListsFound], Except.error ExportError.noListsException)
  else
    let exported_lists := joinSep ", " (matching_lists.map (fun l => l.name))
    ([LogMsg.infoExportingLists exported_lists] ++
      (if strTruthy lists_names && !(found == names.length)
        then [LogMsg.warnFoundOnly found names.length] else []),
      Except.ok matching_lists)

/-- `extract_comments` of the source: empty when comments are not
exported, else the newline-join of `"fullName: text"` per comment. -/
def extract_comments (card : Card) (export_comments : Bool) : String :=
  if !export_comments then ""
  else joinSep "\n" (card.comments.map (fun c => c.fullName ++ ": " ++ c.text))

/-- `get_data` of the source: one `CardData` per card of the list, name
and description verbatim, comments via `extract_comments`. -/
def get_data (trello_list : TrelloList) (export_comments : Bool) : ListData :=
  ⟨trello_list.name,
    trello_list.cards.map (fun card =>
      ⟨card.name, card.description, extract_comments card export_comments⟩)⟩

/-- `format_card` of the source. -/
def format_card (card : CardData) (count : Nat) (no_numbering : Bool) (pfx : String) : String :=
  let result := card.name ++ "\n" ++ card.desc ++ "\n"
  let result := if !no_numbering then pfx ++ " " ++ toString count ++ ". " ++ result else result
  if !(card.comments == "") then result ++ " \n" ++ card.comments ++ "\n\n" else result

/-- The local filesystem: file content per name; a file that does not
exist reads as `""` (append mode creates it). -/
abbrev FS := String → String

/-- Python's `enumerate(xs, start)`. -/
def enumerateFrom : Nat → List α → List (Nat × α)
  | _, [] => []
  | n, x :: xs => (n, x) :: enumerateFrom (n + 1) xs

/-- The bytes `output.writelines` writes for one list: the formatted
cards, enumerated from 1, concatenated in order. -/
def renderCards (cards : List CardData) (no_numbering : Bool) (pfx : String) : String :=
  (enumerateFrom 1 cards).foldl (fun r ic => r ++ format_card ic.2 ic.1 no_numbering pfx) ""

/-- The filename one loop iteration of `save_to_file` opens. -/
def filenameOf (merge : Bool) (board_name : String) (list_data : ListData) : String :=
  if merge then board_name ++ ".txt" else list_data.name ++ ".txt"

/-- One iteration of the `save_to_file` loop: open the file in mode
`'a'` (merge) or `'w'`, write the rendered cards, add the filename to
the `files` set. -/
def save_step (merge : Bool) (pfx : String) (no_numbering : Bool) (board_name : String)
    (acc : FS × Finset String) (list_data : ListData) : FS × Finset String :=
  let filename := filenameOf merge board_name list_data
  (fun g => if g = filename then
      (if merge then acc.1 filename else "") ++ renderCards list_data.cards no_numbering pfx
    else acc.1 g,
    insert filename acc.2)

/-- The outcome of `save_to_file`: the filesystem after the loop, the
local `files` set, the log records, and the Python return value —
`retval` is `none` because the source function has no `return`
statement and so returns `None`. -/
structure SaveOutcome where
  fs : FS
  files : Finset String
  logs : List LogMsg
  retval : Option (Finset String)

/-- `save_to_file` of the source. -/
def save_to_file (data : List ListData) (merge : Bool) (pfx : String)
    (no_numbering : Bool) (board_name : String) (fs : FS) : SaveOutcome :=
  let r := data.foldl (save_step merge pfx no_numbering board_name) (fs, ∅)
  { fs := r.1
    files := r.2
    logs := [LogMsg.infoSavingToFiles, LogMsg.infoSavedTo r.2]
    retval := none }

/-- The total content `save_to_file` appends to the merged file: the
rendered cards of every list, in list order. -/
def concatRenders (no_numbering : Bool) (pfx : String) : List ListData → String
  | [] => ""
  | ld :: rest => renderCards ld.cards no_numbering pfx ++ concatRenders no_numbering pfx rest

/-- The parsed command-line options `main` reads (`setup_client` and the
credentials lookup concern the external client and are outside this
embedding; `all_boards` stands for what `client.list_boards()`
returned). -/
structure Options where
  board : String
  lists : Option String
  pfx : String
  comments : Bool
  merge : Bool
  no_numbering : Bool

/-- The observable outcome of a `main` run: the filesystem afterwards,
the log stream `main` produced, and whether an exception escaped `main`
uncaught. -/
structure MainOutcome where
  fs : FS
  logs : List LogMsg
  uncaughtTypeError : Bool

/-- `main` of the source.  After board and list resolution succeed, the
source calls `save_to_file(cards_data, options.merge, options.prefix,
options['no-numbering'], board.name)`: evaluating the argument
`options['no-numbering']` subscripts the argparse `Namespace`, which is
not subscriptable, so it raises `TypeError` before `save_to_file` is
entered.  `TypeError` is not a `TrelloExportException`, so nothing
catches it and it escapes `main`: no file is written and no saving log
is emitted.  The lazy `cards_data` generator is built but never
consumed, so building it has no observable effect.  A
`TrelloExportException` raised during resolution is caught and logged
as the final failure message. -/
def main (all_boards : List Board) (options : Options) (fs : FS) : MainOutcome :=
  let rb := find_board all_boards options.board
  match rb.2 with
  | Except.error _ => ⟨fs, rb.1 ++ [LogMsg.errorExportFailed], false⟩
  | Except.ok board =>
    let rl := find_lists board options.lists
    match rl.2 with
    | Except.error _ => ⟨fs, rb.1 ++ rl.1 ++ [LogMsg.errorExportFailed], false⟩
    | Except.ok _ => ⟨fs, rb.1 ++ rl.1, true⟩

/-! ## Theorems -/

/-- Claim C1: for every sequence of boards and every query string, if
exactly one board's name equals the query case-insensitively,
`find_board` returns that board, even when other boards' names contain
the query as a substring; and if no board matches exactly but exactly
one board's name contains the query case-insensitively as a substring,
`find_board` returns that board. -/
theorem claim_C1 :
    (∀ (all_boards : List Board) (query : String) (b : Board),
      all_boards.filter (exactMatch query) = [b] →
      (find_board all_boards query).2 = Except.ok b) ∧
    (∀ (all_boards : List Board) (query : String) (b : Board),
      all_boards.filter (exactMatch query) = [] →
      all_boards.filter (inexactMatch query) = [b] →
      (find_board all_boards query).2 = Except.ok b) := by
  constructor
  · intro all_boards query b h
    simp [find_board, h]
  · intro all_boards query b h1 h2
    simp [find_board, h1, h2]

/-- Witness for C1: a unique exact match wins over a substring
distractor (`"Alphabet"` contains `"alpha"` but `"alpha"` matches
exactly), and with no exact match a unique substring match is
returned. -/
theorem claim_C1_witness :
    (find_board [⟨"Alphabet", []⟩, ⟨"alpha", []⟩] "ALPHA").2 =
      Except.ok ⟨"alpha", []⟩ ∧
    (find_board [⟨"Alphabet", []⟩, ⟨"beta", []⟩] "alpha").2 =
      Except.ok ⟨"Alphabet", []⟩ :=
  ⟨claim_C1.1 _ "ALPHA" _ (by decide), claim_C1.2 _ "alpha" _ (by decide) (by decide)⟩

/-- Claim C2 fails on the code: the ambiguous case and the not-found
case raise the same exception class `NoBoardException`, so there are no
two distinct, distinguishable error kinds — here an ambiguous input and
a no-match input produce literally the same error value. -/
theorem claim_C2_counterexample :
    (find_board [⟨"X", []⟩, ⟨"x", []⟩] "x").2 = Except.error ExportError.noBoardException ∧
    (find_board [] "x").2 = Except.error ExportError.noBoardException ∧
    ¬ ∃ e1 e2 : ExportError, e1 ≠ e2 ∧
      (find_board [⟨"X", []⟩, ⟨"x", []⟩] "x").2 = Except.error e1 ∧
      (find_board [] "x").2 = Except.error e2 := by
  refine ⟨by decide, by decide, ?_⟩
  rintro ⟨e1, e2, hne, h1, h2⟩
  have d1 : (find_board [⟨"X", []⟩, ⟨"x", []⟩] "x").2 =
      Except.error ExportError.noBoardException := by decide
  have d2 : (find_board [] "x").2 = Except.error ExportError.noBoardException := by decide
  rw [d1] at h1
  rw [d2] at h2
  injection h1 with h1
  injection h2 with h2
  exact hne (h1.symm.trans h2)

/-- Claim C2 as amended: with two or more exact matches (or, with no
exact match, two or more substring matches) `find_board` fails, and
with zero matches at both tiers it fails, but in all cases with the one
`NoBoardException` kind; the ambiguous and not-found situations are
told apart only by the log record emitted, not by the error kind. -/
theorem claim_C2_amended :
    (∀ (all_boards : List Board) (query : String),
      1 < (all_boards.filter (exactMatch query)).length →
      (find_board all_boards query).2 = Except.error ExportError.noBoardException ∧
      LogMsg.errorMoreThanOneBoard ∈ (find_board all_boards query).1) ∧
    (∀ (all_boards : List Board) (query : String),
      all_boards.filter (exactMatch query) = [] →
      1 < (all_boards.filter (inexactMatch query)).length →
      (find_board all_boards query).2 = Except.error ExportError.noBoardException ∧
      LogMsg.errorMoreThanOneBoard ∈ (find_board all_boards query).1) ∧
    (∀ (all_boards : List Board) (query : String),
      all_boards.filter (exactMatch query) = [] →
      all_boards.filter (inexactMatch query) = [] →
      (find_board all_boards query).2 = Except.error ExportError.noBoardException ∧
      LogMsg.errorNeitherMatch ∈ (find_board all_boards query).1 ∧
      LogMsg.errorMoreThanOneBoard ∉ (find_board all_boards query).1) := by
  refine ⟨?_, ?_, ?_⟩
  · intro all_boards query h
    have hne : ¬ ((all_boards.filter (exactMatch query)).length = 1) := by omega
    simp [find_board, hne, h]
  · intro all_boards query h1 h
    have hne : ¬ ((all_boards.filter (inexactMatch query)).length = 1) := by omega
    simp [find_board, h1, hne, h]
  · intro all_boards query h1 h2
    simp [find_board, h1, h2]

/-- Witness for the amended C2, at an ambiguous exact match, an
ambiguous substring match, and a query matching nothing. -/
theorem claim_C2_amended_witness :
    ((find_board [⟨"X", []⟩, ⟨"x", []⟩] "x").2 = Except.error ExportError.noBoardException ∧
      LogMsg.errorMoreThanOneBoard ∈ (find_board [⟨"X", []⟩, ⟨"x", []⟩] "x").1) ∧
    ((find_board [⟨"ax", []⟩, ⟨"bx", []⟩] "x").2 = Except.error ExportError.noBoardException ∧
      LogMsg.errorMoreThanOneBoard ∈ (find_board [⟨"ax", []⟩, ⟨"bx", []⟩] "x").1) ∧
    ((find_board [] "x").2 = Except.error ExportError.noBoardException ∧
      LogMsg.errorNeitherMatch ∈ (find_board [] "x").1 ∧
      LogMsg.errorMoreThanOneBoard ∉ (find_board [] "x").1) :=
  ⟨claim_C2_amended.1 _ _ (by decide),
   claim_C2_amended.2.1 _ _ (by decide) (by decide),
   claim_C2_amended.2.2 _ _ (by decide) (by decide)⟩

/-- Helper: the join of a nonempty list of parts is at least as long as
its first part. -/
theorem joinSep_cons_length (sep x : String) (rest : List String) :
    x.length ≤ (joinSep sep (x :: rest)).length := by
  cases rest with
  | nil => simp [joinSep]
  | cons y t =>
    simp only [joinSep, String.length_append]
    omega

/-- Claim C4 fails on the code: when comment export is requested but a
card has no comments, `extract_comments` still returns the empty
string, so emptiness of the comments field is not equivalent to comment
export being off. -/
theorem claim_C4_counterexample :
    extract_comments ⟨"n", "d", []⟩ true = "" ∧
    ¬ (∀ (card : Card) (export_comments : Bool),
        extract_comments card export_comments = "" ↔ export_comments = false) := by
  refine ⟨rfl, fun h => ?_⟩
  have hc := (h ⟨"n", "d", []⟩ true).mp rfl
  exact Bool.noConfusion hc

/-- Claim C4 as amended: the comments field is empty exactly when
comment export was not requested or the card has no comments; with
export requested it is the newline-join of the rendered comments, each
of which is nonempty. -/
theorem claim_C4_amended (card : Card) (export_comments : Bool) :
    extract_comments card export_comments = "" ↔
      export_comments = false ∨ card.comments = [] := by
  cases export_comments with
  | false => simp [extract_comments]
  | true =>
    simp only [extract_comments, Bool.not_true, Bool.false_eq_true, false_or,
      if_false, Bool.true_eq_false]
    cases card.comments with
    | nil => simp [joinSep]
    | cons c cs =>
      simp only [List.map_cons, List.cons_ne_nil, iff_false]
      intro h
      have hlen := joinSep_cons_length "\n" (c.fullName ++ ": " ++ c.text)
        (cs.map (fun x => x.fullName ++ ": " ++ x.text))
      rw [h] at hlen
      have h2 : (": " : String).length = 2 := rfl
      have h0 : ("" : String).length = 0 := rfl
      simp [String.length_append, h2, h0] at hlen

/-- Claim C5: with ordinal 1, numbering on and the `"Card"` option
value, a comment-free card formats to exactly `"Card 1. X\nY\n"`; with
numbering off, to exactly `"X\nY\n"`; with non-empty comments the block
gains the trailing suffix `" \n<comments>\n\n"`, literal leading space
included. -/
theorem claim_C5 :
    (∀ X Y : String, format_card ⟨X, Y, ""⟩ 1 false "Card" =
      "Card 1. " ++ X ++ "\n" ++ Y ++ "\n") ∧
    (∀ X Y : String, format_card ⟨X, Y, ""⟩ 1 true "Card" = X ++ "\n" ++ Y ++ "\n") ∧
    (∀ X Y comm : String, comm ≠ "" →
      format_card ⟨X, Y, comm⟩ 1 false "Card" =
        format_card ⟨X, Y, ""⟩ 1 false "Card" ++ " \n" ++ comm ++ "\n\n") := by
  refine ⟨?_, ?_, ?_⟩
  · intro X Y
    show "Card" ++ " " ++ toString 1 ++ ". " ++ (X ++ "\n" ++ Y ++ "\n") = _
    rw [show ("Card" ++ " " ++ toString 1 ++ ". " : String) = "Card 1. " from by decide]
    simp [String.append_assoc]
  · intro X Y
    rfl
  · intro X Y comm h
    simp [format_card, h]

/-- Witness for C5, at `X := "X"`, `Y := "Y"`, comments `"c"`. -/
theorem claim_C5_witness :
    format_card ⟨"X", "Y", ""⟩ 1 false "Card" = "Card 1. X\nY\n" ∧
    format_card ⟨"X", "Y", ""⟩ 1 true "Card" = "X\nY\n" ∧
    format_card ⟨"X", "Y", "c"⟩ 1 false "Card" = "Card 1. X\nY\n \nc\n\n" :=
  ⟨(claim_C5.1 "X" "Y").trans (by decide),
   (claim_C5.2.1 "X" "Y").trans (by decide),
   (claim_C5.2.2 "X" "Y" "c" (by decide)).trans (by decide)⟩

/-- Claim C6 fails on the code for the boundary case: on a board with
no lists (or a filter matching no list) `find_lists` raises
`NoListsException` instead of returning the empty selection. -/
theorem claim_C6_counterexample :
    (find_lists ⟨"B", []⟩ none).2 = Except.error ExportError.noListsException ∧
    (find_lists ⟨"B", []⟩ none).2 ≠ Except.ok (Board.mk "B" []).lists := by decide

/-- Claim C6 as amended: provided at least one list survives the
selection, an absent or empty filter yields all lists of the board in
board order, and a non-empty filter yields exactly the lists whose
names occur in the comma-split filter, case-sensitively, in board
order; a selection that ends up empty raises `NoListsException`
instead. -/
theorem claim_C6_amended :
    (∀ (board : Board) (lists_names : Option String),
      strTruthy lists_names = false → board.lists ≠ [] →
      (find_lists board lists_names).2 = Except.ok board.lists) ∧
    (∀ (board : Board) (s : String), s ≠ "" →
      board.lists.filter (fun l => (splitComma s).contains l.name) ≠ [] →
      (find_lists board (some s)).2 =
        Except.ok (board.lists.filter (fun l => (splitComma s).contains l.name))) := by
  constructor
  · intro board lists_names ht hl
    have h0 : ¬ (board.lists.length = 0) := by simpa [List.length_eq_zero] using hl
    simp [find_lists, ht, h0]
  · intro board s hs hl
    have ht : strTruthy (some s) = true := by simp [strTruthy, hs]
    have h0 : ¬ ((board.lists.filter (fun l => (splitComma s).contains l.name)).length = 0) := by
      simpa [List.length_eq_zero] using hl
    simp only [find_lists, Option.getD_some]
    rw [if_pos ht, if_neg h0]

/-- Witness for the amended C6: an absent filter returns both lists; a
filter naming one list returns exactly it. -/
theorem claim_C6_amended_witness :
    (find_lists ⟨"B", [⟨"A", []⟩, ⟨"C", []⟩]⟩ none).2 =
      Except.ok [⟨"A", []⟩, ⟨"C", []⟩] ∧
    (find_lists ⟨"B", [⟨"A", []⟩, ⟨"C", []⟩]⟩ (some "C")).2 = Except.ok [⟨"C", []⟩] :=
  ⟨claim_C6_amended.1 ⟨"B", [⟨"A", []⟩, ⟨"C", []⟩]⟩ none (by decide) (by decide),
   (claim_C6_amended.2 ⟨"B", [⟨"A", []⟩, ⟨"C", []⟩]⟩ "C" (by decide) (by decide)).trans
     (by decide)⟩

/-- Claim C10: with numbering on and the default empty option value,
every formatted block begins with a literal space before the ordinal:
the numbered block is exactly `" <ordinal>. "` prepended to the
unnumbered block, the separator space not being suppressed. -/
theorem claim_C10 (card : CardData) (count : Nat) :
    format_card card count false "" =
      " " ++ toString count ++ ". " ++ format_card card count true "" := by
  by_cases h : card.comments = ""
  · simp [format_card, h, String.empty_append, String.append_assoc]
  · simp [format_card, h, String.empty_append, String.append_assoc]

/-- Helper: the `files` accumulator of the `save_to_file` loop collects
exactly the filename of every list processed. -/
theorem save_fold_files (merge : Bool) (pfx : String) (no_numbering : Bool)
    (board_name : String) :
    ∀ (data : List ListData) (acc : FS × Finset String),
    (data.foldl (save_step merge pfx no_numbering board_name) acc).2 =
      acc.2 ∪ (data.map (filenameOf merge board_name)).toFinset := by
  intro data
  induction data with
  | nil => intro acc; simp
  | cons hd tl ih =>
    intro acc
    simp only [List.foldl_cons, List.map_cons, List.toFinset_cons]
    rw [ih]
    simp [save_step, Finset.insert_union, Finset.union_insert]

/-- Helper: in merge mode the `save_to_file` loop appends the rendered
lists, in order, to `board_name ++ ".txt"` and leaves every other file
untouched. -/
theorem save_fold_merge_content (pfx : String) (no_numbering : Bool) (board_name : String) :
    ∀ (data : List ListData) (acc : FS × Finset String),
    ((data.foldl (save_step true pfx no_numbering board_name) acc).1 (board_name ++ ".txt") =
      acc.1 (board_name ++ ".txt") ++ concatRenders no_numbering pfx data) ∧
    (∀ g, g ≠ board_name ++ ".txt" →
      (data.foldl (save_step true pfx no_numbering board_name) acc).1 g = acc.1 g) := by
  intro data
  induction data with
  | nil =>
    intro acc
    exact ⟨(String.append_empty _).symm, fun g _ => rfl⟩
  | cons hd tl ih =>
    intro acc
    constructor
    · rw [List.foldl_cons, (ih _).1]
      simp [save_step, filenameOf, concatRenders, String.append_assoc]
    · intro g hg
      rw [List.foldl_cons, (ih _).2 g hg]
      simp [save_step, filenameOf, hg]

/-- Helper: no log record of `find_board` is a saved-to report. -/
theorem find_board_logs_no_saved (all_boards : List Board) (board_name : String)
    (S : Finset String) :
    LogMsg.infoSavedTo S ∉ (find_board all_boards board_name).1 := by
  simp only [find_board]
  split
  · simp
  · split
    · simp
    · split
      · simp
      · split <;> simp

/-- Helper: no log record of `find_lists` is a saved-to report. -/
theorem find_lists_logs_no_saved (board : Board) (lists_names : Option String)
    (S : Finset String) :
    LogMsg.infoSavedTo S ∉ (find_lists board lists_names).1 := by
  simp only [find_lists]
  split
  · split
    · simp
    · split <;> simp
  · split
    · simp
    · split <;> simp

/-- Claim C3 fails on the code twice over: `save_to_file` has no
`return` statement, so it returns `None` rather than the set of
filenames it touched (here `{"A.txt"}`); and on a run whose board and
list resolution succeed, `main` raises an uncaught `TypeError` at the
`options['no-numbering']` subscript before `save_to_file` is called,
so `main` never reports any written filenames. -/
theorem claim_C3_counterexample :
    (save_to_file [⟨"A", []⟩] false "" false "B" (fun _ => "")).retval = none ∧
    (save_to_file [⟨"A", []⟩] false "" false "B" (fun _ => "")).files = {"A.txt"} ∧
    (save_to_file [⟨"A", []⟩] false "" false "B" (fun _ => "")).retval ≠
      some ((save_to_file [⟨"A", []⟩] false "" false "B" (fun _ => "")).files) ∧
    (main [⟨"B", [⟨"L", []⟩]⟩] ⟨"B", none, "", false, true, false⟩
      (fun _ => "")).uncaughtTypeError = true ∧
    LogMsg.infoSavedTo {"B.txt"} ∉
      (main [⟨"B", [⟨"L", []⟩]⟩] ⟨"B", none, "", false, true, false⟩ (fun _ => "")).logs := by
  refine ⟨rfl, by decide, ?_, by decide, by decide⟩
  intro h
  exact Option.noConfusion h

/-- Claim C3 as amended: `save_to_file` computes the set of distinct
filenames it touched and logs it as its final message, returning
nothing (`None`); `main`, however, never reports that set: on every
run in which board and list resolution succeed, evaluating
`options['no-numbering']` on the argparse `Namespace` raises an
uncaught `TypeError` before `save_to_file` is called, so `main` leaves
the filesystem unchanged and its log stream — just the resolution
logs — holds no saved-to report. -/
theorem claim_C3_amended :
    (∀ (data : List ListData) (merge : Bool) (pfx : String) (no_numbering : Bool)
        (board_name : String) (fs : FS),
      (save_to_file data merge pfx no_numbering board_name fs).files =
        (data.map (filenameOf merge board_name)).toFinset ∧
      (save_to_file data merge pfx no_numbering board_name fs).logs.getLast? =
        some (LogMsg.infoSavedTo ((data.map (filenameOf merge board_name)).toFinset)) ∧
      (save_to_file data merge pfx no_numbering board_name fs).retval = none) ∧
    (∀ (all_boards : List Board) (options : Options) (fs : FS) (board : Board)
        (lists : List TrelloList),
      (find_board all_boards options.board).2 = Except.ok board →
      (find_lists board options.lists).2 = Except.ok lists →
      (main all_boards options fs).uncaughtTypeError = true ∧
      (main all_boards options fs).fs = fs ∧
      (main all_boards options fs).logs =
        (find_board all_boards options.board).1 ++ (find_lists board options.lists).1 ∧
      ∀ S : Finset String, LogMsg.infoSavedTo S ∉ (main all_boards options fs).logs) := by
  constructor
  · intro data merge pfx no_numbering board_name fs
    have hf := save_fold_files merge pfx no_numbering board_name data (fs, ∅)
    refine ⟨?_, ?_, rfl⟩
    · show (data.foldl (save_step merge pfx no_numbering board_name) (fs, ∅)).2 = _
      rw [hf]
      simp
    · show ([LogMsg.infoSavingToFiles, LogMsg.infoSavedTo
          (data.foldl (save_step merge pfx no_numbering board_name) (fs, ∅)).2] :
            List LogMsg).getLast? = _
      rw [hf]
      simp
  · intro all_boards options fs board lists h1 h2
    refine ⟨?_, ?_, ?_, ?_⟩ <;> simp only [main, h1, h2]
    · intro S
      rw [List.mem_append]
      rintro (hS | hS)
      · exact find_board_logs_no_saved all_boards options.board S hS
      · exact find_lists_logs_no_saved board options.lists S hS

/-- Witness for the amended C3: a one-list non-merge save logs
`{"L.txt"}` as its final message and returns `none`; a run whose board
and list resolution succeed ends in the uncaught `TypeError` with no
saved-to report in its logs. -/
theorem claim_C3_amended_witness :
    ((save_to_file [⟨"L", []⟩] false "" false "B" (fun _ => "")).files = {"L.txt"} ∧
      (save_to_file [⟨"L", []⟩] false "" false "B" (fun _ => "")).logs.getLast? =
        some (LogMsg.infoSavedTo {"L.txt"}) ∧
      (save_to_file [⟨"L", []⟩] false "" false "B" (fun _ => "")).retval = none) ∧
    (main [⟨"B", [⟨"L", []⟩]⟩] ⟨"B", none, "", false, true, false⟩
      (fun _ => "")).uncaughtTypeError = true ∧
    (main [⟨"B", [⟨"L", []⟩]⟩] ⟨"B", none, "", false, true, false⟩ (fun _ => "")).fs "B.txt" =
      "" ∧
    LogMsg.infoSavedTo {"B.txt"} ∉
      (main [⟨"B", [⟨"L", []⟩]⟩] ⟨"B", none, "", false, true, false⟩ (fun _ => "")).logs := by
  have hm := claim_C3_amended.2 [⟨"B", [⟨"L", []⟩]⟩] ⟨"B", none, "", false, true, false⟩
    (fun _ => "") ⟨"B", [⟨"L", []⟩]⟩ [⟨"L", []⟩] (by decide) (by decide)
  refine ⟨?_, hm.1, ?_, hm.2.2.2 {"B.txt"}⟩
  · have h := claim_C3_amended.1 [⟨"L", []⟩] false "" false "B" (fun _ => "")
    exact ⟨h.1.trans (by decide), h.2.1.trans (by decide), h.2.2⟩
  · exact congrFun hm.2.1 "B.txt"

/-- Witness for the amended C4: a card with one comment and export
requested has a non-empty comments field. -/
theorem claim_C4_amended_witness :
    extract_comments ⟨"n", "d", [⟨"Ann", "hi"⟩]⟩ true ≠ "" := by
  intro h
  rcases (claim_C4_amended ⟨"n", "d", [⟨"Ann", "hi"⟩]⟩ true).mp h with h2 | h2
  · exact Bool.noConfusion h2
  · exact List.noConfusion h2

/-- Claim C7: exporting two lists of 2 and 1 cards in merge mode
touches exactly one file, whose new content is the three formatted
blocks with ordinals 1, 2 and then 1 again — the ordinal restarts at 1
for the second list — and the restart equally holds with merge off,
where the second list's own file holds its cards numbered from 1. -/
theorem claim_C7 (c1 c2 c3 : CardData) (n1 n2 board_name pfx : String) (nn : Bool) (fs : FS) :
    (save_to_file [⟨n1, [c1, c2]⟩, ⟨n2, [c3]⟩] true pfx nn board_name fs).files =
      {board_name ++ ".txt"} ∧
    (save_to_file [⟨n1, [c1, c2]⟩, ⟨n2, [c3]⟩] true pfx nn board_name fs).fs
        (board_name ++ ".txt") =
      fs (board_name ++ ".txt") ++ format_card c1 1 nn pfx ++ format_card c2 2 nn pfx ++
        format_card c3 1 nn pfx ∧
    (save_to_file [⟨n1, [c1, c2]⟩, ⟨n2, [c3]⟩] false pfx nn board_name fs).fs (n2 ++ ".txt") =
      format_card c3 1 nn pfx := by
  refine ⟨?_, ?_, ?_⟩
  · simp [save_to_file, save_step, filenameOf, Finset.insert_idem]
  · simp [save_to_file, save_step, filenameOf, renderCards, enumerateFrom,
      String.empty_append, String.append_assoc]
  · simp [save_to_file, save_step, filenameOf, renderCards, enumerateFrom,
      String.empty_append]

/-- Claim C9: in merge mode the output file is only appended to, never
truncated: whatever bytes the file held before the run are still its
prefix afterwards, the newly exported content follows them, and no
other file is changed. -/
theorem claim_C9 (data : List ListData) (pfx board_name : String) (no_numbering : Bool)
    (fs : FS) :
    (save_to_file data true pfx no_numbering board_name fs).fs (board_name ++ ".txt") =
      fs (board_name ++ ".txt") ++ concatRenders no_numbering pfx data ∧
    ∀ g, g ≠ board_name ++ ".txt" →
      (save_to_file data true pfx no_numbering board_name fs).fs g = fs g := by
  constructor
  · exact (save_fold_merge_content pfx no_numbering board_name data (fs, ∅)).1
  · exact fun g hg => (save_fold_merge_content pfx no_numbering board_name data (fs, ∅)).2 g hg

/-- Witness for C9: a merged run over a filesystem whose `"B.txt"`
already holds `"OLD"` keeps those bytes as prefix and leaves the other
file alone. -/
theorem claim_C9_witness :
    (save_to_file [⟨"L", [⟨"X", "Y", ""⟩]⟩] true "" false "B"
      (fun g => if g = "B.txt" then "OLD" else "KEEP")).fs "B.txt" = "OLD 1. X\nY\n" ∧
    (save_to_file [⟨"L", [⟨"X", "Y", ""⟩]⟩] true "" false "B"
      (fun g => if g = "B.txt" then "OLD" else "KEEP")).fs "other.txt" = "KEEP" := by
  constructor
  · exact ((claim_C9 [⟨"L", [⟨"X", "Y", ""⟩]⟩] "" "B" false
      (fun g => if g = "B.txt" then "OLD" else "KEEP")).1).trans (by decide)
  · exact ((claim_C9 [⟨"L", [⟨"X", "Y", ""⟩]⟩] "" "B" false
      (fun g => if g = "B.txt" then "OLD" else "KEEP")).2 "other.txt" (by decide)).trans
      (by decide)

/-- Claim C8: a filter naming three lists of which only `"A"` and `"C"`
exist on the board makes `find_lists` succeed with exactly those two
lists, in board order, while emitting the partial-match warning citing
2 found of 3 requested — a warning, with the run continuing on the
`Except.ok` path. -/
theorem claim_C8 (ca cd cc : List Card) :
    (find_lists ⟨"Board", [⟨"A", ca⟩, ⟨"D", cd⟩, ⟨"C", cc⟩]⟩ (some "A,B,C")).2 =
      Except.ok [⟨"A", ca⟩, ⟨"C", cc⟩] ∧
    LogMsg.warnFoundOnly 2 3 ∈
      (find_lists ⟨"Board", [⟨"A", ca⟩, ⟨"D", cd⟩, ⟨"C", cc⟩]⟩ (some "A,B,C")).1 := by
  have hsplit : splitComma "A,B,C" = ["A", "B", "C"] := by decide
  have hA : ((["A", "B", "C"] : List String).contains "A") = true := by decide
  have hD : ((["A", "B", "C"] : List String).contains "D") = false := by decide
  have hC : ((["A", "B", "C"] : List String).contains "C") = true := by decide
  simp only [find_lists, Option.getD_some, hsplit, strTruthy]
  simp [List.filter_cons, hA, hD, hC, joinSep]

end TrelloExport
